import Mathlib

/-!
Shallow embedding of the data-preparation and growth-rate ranking pipeline of
the Visual-Data-Science-Report repository (`src/Dashboard.py` and
`src/streamlit_app.py`).

Modelling conventions:
* A CSV row is a `RawRecord`; the two long metric column names are modelled by
  the field names `lifeExpF` (`Life expectancy-female` after the rename) and
  `totalPop` (`Total Population` after the rename) — `df.rename` changes only
  column names, never values, so it is absorbed into the field naming.
* Nullable cells (`NaN` in pandas) are `Option` values; floating-point numbers
  are idealised as `ℚ` (all quantities computed by the pipeline — medians and
  OLS slopes — are rational functions of the inputs).
* `pandas` sorts (`nlargest`, `sort_values`) are modelled by the stable
  `List.insertionSort`; on the sizes this program sorts (`n ≤ 10` rows of the
  `nlargest` output) numpy's default sort degenerates to a stable insertion
  sort, and `nlargest(..., keep='first')` is documented to prefer earlier rows
  among ties, so stable sorting is the faithful model.
* `scipy.stats.linregress` raises
  `ValueError("Cannot calculate a linear regression if all x values are identical")`
  when `amax(x) == amin(x)` for more than one point; this is modelled by the
  `Except.error` branch of `get_slope`.  When a `y` value is `NaN`, `linregress`
  returns a `NaN` slope without raising; this is modelled by a `none` rate.
-/

namespace VDSR

/-- A raw input row of `dataset.csv`, after the column rename of `load_data`
(`src/Dashboard.py` lines 10-13): `Entity`, `Code` (nullable), `Year`,
`Continent`, `Life expectancy-female` (nullable), `Total Population`
(nullable). -/
structure RawRecord where
  entity : String
  code : Option String
  year : ℤ
  continent : String
  lifeExpF : Option ℚ
  totalPop : Option ℚ
deriving DecidableEq, Repr

/-- A cleaned row as produced by `load_data`: the `Code` column has been
`fillna('NA')`-ed so it is a plain string; `Life expectancy-female` can still
be null (for an entity all of whose observations were null). -/
structure Record where
  entity : String
  code : String
  year : ℤ
  continent : String
  lifeExpF : Option ℚ
  totalPop : Option ℚ
deriving DecidableEq, Repr

/-- The median of a list of rationals, as `pandas.Series.median` computes it on
the non-null values: sort ascending, take the middle element for odd length and
the mean of the two middle elements for even length; the median of an empty
series is null (`none`). -/
def median (l : List ℚ) : Option ℚ :=
  let s := List.insertionSort (· ≤ ·) l
  if s.length % 2 = 1 then s[s.length / 2]?
  else
    match s[s.length / 2 - 1]?, s[s.length / 2]? with
    | some a, some b => some ((a + b) / 2)
    | _, _ => none

/-- The rows of `l` belonging to entity `e` (the group produced by
`df.groupby('Entity')` for key `e`, in original row order). -/
def entityGroup (l : List RawRecord) (e : String) : List RawRecord :=
  l.filter (fun r => r.entity == e)

/-- The non-null `Life expectancy-female` values of entity `e` in `l` (the
values over which `x.median()` is taken inside the `transform` of
`src/Dashboard.py` line 14). -/
def entityValues (l : List RawRecord) (e : String) : List ℚ :=
  (entityGroup l e).filterMap (·.lifeExpF)

/-- Cleaning of one row by `load_data` (`src/Dashboard.py` lines 14-15):
null `Life expectancy-female` cells are filled with the median of the non-null
values of the row's own entity group (`groupby('Entity')...transform(lambda x:
x.fillna(x.median()))`); null `Code` cells are filled with the literal `"NA"`
(`df['Code'].fillna('NA')`).  All other columns are copied unchanged. -/
def cleanRow (l : List RawRecord) (r : RawRecord) : Record :=
  { entity := r.entity
    code := r.code.getD "NA"
    year := r.year
    continent := r.continent
    lifeExpF :=
      match r.lifeExpF with
      | some v => some v
      | none => median (entityValues l r.entity)
    totalPop := r.totalPop }

/-- `load_data` of `src/Dashboard.py` lines 8-16 (identical in
`src/streamlit_app.py` lines 13-21), with the already-parsed CSV as input: the
column rename is absorbed into the field names, then the two fill operations
are applied row by row. -/
def load_data (l : List RawRecord) : List Record :=
  l.map (cleanRow l)

/-- `YEAR_START` of `src/Dashboard.py` line 21. -/
def YEAR_START : ℤ := 2010

/-- `YEAR_END` of `src/Dashboard.py` line 21. -/
def YEAR_END : ℤ := 2022

/-- The static filter of `src/Dashboard.py` lines 22-23:
`mask = (df['Year'].between(YEAR_START, YEAR_END)) & (df['Code'] != 'NA')`,
`filtered_df = df[mask].copy()`.  `Series.between` is inclusive on both
bounds.  Generalised over the two year bounds, which the spec exposes as the
configuration surface of `filter_range`. -/
def filter_range (year_start year_end : ℤ) (df : List Record) : List Record :=
  df.filter (fun r =>
    decide (year_start ≤ r.year) && decide (r.year ≤ year_end) && (r.code != "NA"))

/-- Sum of the x coordinates of a list of points. -/
def Sx (pts : List (ℚ × ℚ)) : ℚ := (pts.map (·.1)).sum

/-- Sum of the y coordinates of a list of points. -/
def Sy (pts : List (ℚ × ℚ)) : ℚ := (pts.map (·.2)).sum

/-- Sum of the squared x coordinates of a list of points. -/
def Sxx (pts : List (ℚ × ℚ)) : ℚ := (pts.map (fun p => p.1 * p.1)).sum

/-- Sum of the products x·y of a list of points. -/
def Sxy (pts : List (ℚ × ℚ)) : ℚ := (pts.map (fun p => p.1 * p.2)).sum

/-- The number of points, as a rational. -/
def nQ (pts : List (ℚ × ℚ)) : ℚ := pts.length

/-- `n·Σx² - (Σx)²`, i.e. `n²` times the variance of the x coordinates; the
denominator of the least-squares slope. -/
def Dvar (pts : List (ℚ × ℚ)) : ℚ := nQ pts * Sxx pts - Sx pts * Sx pts

/-- The slope returned by `scipy.stats.linregress`: `ssxym / ssxm` with
`ssxym = mean(xy) - mean(x)·mean(y)` and `ssxm = mean(x²) - mean(x)²`, which
equals `(n·Σxy - Σx·Σy) / (n·Σx² - (Σx)²)` after scaling numerator and
denominator by `n²`. -/
def linregressSlope (pts : List (ℚ × ℚ)) : ℚ :=
  (nQ pts * Sxy pts - Sx pts * Sy pts) / Dvar pts

/-- The least-squares intercept `a = (Σy - b·Σx) / n` paired with
`linregressSlope`. -/
def intercept (pts : List (ℚ × ℚ)) : ℚ :=
  (Sy pts - linregressSlope pts * Sx pts) / nQ pts

/-- The sum of squared residuals of the affine fit `y ≈ a + b·x` on `pts`. -/
def SSE (pts : List (ℚ × ℚ)) (a b : ℚ) : ℚ :=
  (pts.map (fun p => (p.2 - (a + b * p.1)) ^ 2)).sum

/-- The `(Year, Life expectancy-female)` points of a group, as handed to
`linregress(group['Year'], group['Life expectancy-female'])`; `none` when some
value of the group is null (in which case `linregress` produces a `NaN`
slope). -/
def ptsOf : List Record → Option (List (ℚ × ℚ))
  | [] => some []
  | r :: rs =>
    match r.lifeExpF, ptsOf rs with
    | some v, some ps => some (((r.year : ℚ), v) :: ps)
    | _, _ => none

/-- Whether all `Year` values of a group coincide — the
`amax(x) == amin(x)` guard under which `scipy.stats.linregress` raises
`ValueError` for groups of more than one row. -/
def allYearsEq : List Record → Bool
  | [] => true
  | r :: rs => rs.all (fun s => s.year == r.year)

/-- `get_slope` of `src/Dashboard.py` lines 25-28: groups with fewer than 2
rows get slope `0`; otherwise `linregress` is called, which raises when all
x values are identical, returns a `NaN` (`none`) slope when a y value is null,
and otherwise returns the least-squares slope. -/
def get_slope (group : List Record) : Except String (Option ℚ) :=
  if group.length < 2 then .ok (some 0)
  else if allYearsEq group then
    .error "Cannot calculate a linear regression if all x values are identical"
  else .ok ((ptsOf group).map linregressSlope)

/-- The rows of the filtered frame belonging to entity `e`, in original row
order (one group of `filtered_df.groupby('Entity')`). -/
def groupOf (l : List Record) (e : String) : List Record :=
  l.filter (fun r => r.entity == e)

/-- The distinct entities of `l` in the order `groupby('Entity')` visits them
(pandas sorts group keys ascending by default). -/
def entityKeys (l : List Record) : List String :=
  List.insertionSort (· ≤ ·) (l.map (·.entity)).dedup

/-- Apply `get_slope` to the group of each key in turn; the first `ValueError`
raised by `linregress` aborts the whole `groupby(...).apply(...)`. -/
def slopesAux (l : List Record) : List String → Except String (List (String × Option ℚ))
  | [] => .ok []
  | e :: es =>
    match get_slope (groupOf l e), slopesAux l es with
    | .ok s, .ok rest => .ok ((e, s) :: rest)
    | .error msg, _ => .error msg
    | .ok _, .error msg => .error msg

/-- `slopes = filtered_df.groupby('Entity').apply(get_slope)` of
`src/Dashboard.py` line 30: one `(Entity, Growth_Rate)` entry per distinct
entity of the filtered frame, in sorted key order. -/
def slopes (l : List Record) : Except String (List (String × Option ℚ)) :=
  slopesAux l (entityKeys l)

/-- Ordering of growth-map entries by ascending rate (the key used by
`sort_values('Growth_Rate', ascending=True)`). -/
def rateLE (a b : String × ℚ) : Prop := a.2 ≤ b.2

/-- Ordering of growth-map entries by descending rate (the key used by
`nlargest`). -/
def rateGE (a b : String × ℚ) : Prop := b.2 ≤ a.2

instance : DecidableRel rateLE := fun a b => inferInstanceAs (Decidable (a.2 ≤ b.2))

instance : DecidableRel rateGE := fun a b => inferInstanceAs (Decidable (b.2 ≤ a.2))

instance : IsTotal (String × ℚ) rateLE := ⟨fun a b => le_total a.2 b.2⟩

instance : IsTotal (String × ℚ) rateGE := ⟨fun a b => le_total b.2 a.2⟩

instance : IsTrans (String × ℚ) rateLE := ⟨fun _ _ _ h h' => le_trans h h'⟩

instance : IsTrans (String × ℚ) rateGE := ⟨fun _ _ _ h h' => le_trans h' h⟩

/-- `Series.nlargest(n, keep='first')`: the `n` rows with the largest value,
ordered descending, ties resolved in favour of earlier rows — i.e. the first
`n` rows of a stable descending sort.  Rows whose value is `NaN` have already
been removed by the caller (`nlargest` drops them). -/
def nlargest (m : List (String × ℚ)) (n : ℕ) : List (String × ℚ) :=
  (List.insertionSort rateGE m).take n

/-- `slopes.nlargest(n, 'Growth_Rate').sort_values('Growth_Rate',
ascending=True)` of `src/Dashboard.py` line 31, generalised over `n`. -/
def top_n (m : List (String × ℚ)) (n : ℕ) : List (String × ℚ) :=
  List.insertionSort rateLE (nlargest m n)

/-- `top_10` of `src/Dashboard.py` line 31 (`n = 10`). -/
def top_10 (m : List (String × ℚ)) : List (String × ℚ) := top_n m 10

/-- Drop the entries whose growth rate is `NaN` (`nlargest` excludes null
values of the sort column). -/
def dropNone (m : List (String × Option ℚ)) : List (String × ℚ) :=
  m.filterMap (fun p => p.2.map (fun v => (p.1, v)))

/-- The whole reproducible pipeline of `src/Dashboard.py` lines 8-31: load and
clean, filter to `[YEAR_START, YEAR_END]` and valid codes, compute per-entity
slopes, rank the top 10 ascending.  Returns the filtered frame and the top-10
ranking, the two outputs consumed by the charts. -/
def run_pipeline (src : List RawRecord) : Except String (List Record × List (String × ℚ)) :=
  let df := load_data src
  let fd := filter_range YEAR_START YEAR_END df
  match slopes fd with
  | .error msg => .error msg
  | .ok sl => .ok (fd, top_10 (dropNone sl))

/-- A group row as seen by `get_slope` in `src/streamlit_app.py`: because of
`apply(get_slope, include_groups=False)` (line 35), the grouping column
`Entity` is dropped from the group frame; all other columns remain. -/
structure GroupRow where
  code : String
  year : ℤ
  continent : String
  lifeExpF : Option ℚ
  totalPop : Option ℚ
deriving DecidableEq, Repr

/-- Removal of the `Entity` column from a row, performed by
`include_groups=False`. -/
def dropEntity (r : Record) : GroupRow :=
  { code := r.code
    year := r.year
    continent := r.continent
    lifeExpF := r.lifeExpF
    totalPop := r.totalPop }

namespace streamlit

/-- `ptsOf` for entity-stripped group rows. -/
def ptsOf : List GroupRow → Option (List (ℚ × ℚ))
  | [] => some []
  | r :: rs =>
    match r.lifeExpF, ptsOf rs with
    | some v, some ps => some (((r.year : ℚ), v) :: ps)
    | _, _ => none

/-- `allYearsEq` for entity-stripped group rows. -/
def allYearsEq : List GroupRow → Bool
  | [] => true
  | r :: rs => rs.all (fun s => s.year == r.year)

/-- `get_slope` of `src/streamlit_app.py` lines 30-33 — textually identical to
the Dashboard version, but its argument is a group frame without the `Entity`
column. -/
def get_slope (group : List GroupRow) : Except String (Option ℚ) :=
  if group.length < 2 then .ok (some 0)
  else if allYearsEq group then
    .error "Cannot calculate a linear regression if all x values are identical"
  else .ok ((ptsOf group).map VDSR.linregressSlope)

/-- `slopesAux` for the streamlit script: each group is stripped of its
`Entity` column before `get_slope` sees it. -/
def slopesAux (l : List Record) : List String → Except String (List (String × Option ℚ))
  | [] => .ok []
  | e :: es =>
    match get_slope ((groupOf l e).map dropEntity), slopesAux l es with
    | .ok s, .ok rest => .ok ((e, s) :: rest)
    | .error msg, _ => .error msg
    | .ok _, .error msg => .error msg

/-- `slopes = filtered_df.groupby('Entity').apply(get_slope,
include_groups=False)` of `src/streamlit_app.py` line 35. -/
def slopes (l : List Record) : Except String (List (String × Option ℚ)) :=
  slopesAux l (entityKeys l)

/-- The reproducible pipeline of `src/streamlit_app.py` lines 13-36; loading,
filtering and ranking are textually identical to the Dashboard script, and the
slope step differs only by `include_groups=False`. -/
def run_pipeline (src : List RawRecord) :
    Except String (List Record × List (String × ℚ)) :=
  let df := load_data src
  let fd := filter_range YEAR_START YEAR_END df
  match slopes fd with
  | .error msg => .error msg
  | .ok sl => .ok (fd, top_10 (dropNone sl))

end streamlit

/-! ### Helper lemmas -/

theorem count_filter_eq {α : Type} [DecidableEq α] (p : α → Bool) (l : List α) (a : α) :
    (l.filter p).count a = if p a then l.count a else 0 := by
  induction l with
  | nil => simp
  | cons x xs ih =>
    by_cases hx : p x
    · rw [List.filter_cons_of_pos hx]
      by_cases hxa : x = a
      · subst hxa; simp [List.count_cons, ih, hx]
      · simp [List.count_cons, ih, hxa]
    · rw [List.filter_cons_of_neg hx]
      by_cases hxa : x = a
      · subst hxa; simp [List.count_cons, ih, hx]
      · simp [List.count_cons, ih, hxa]

theorem filterPred_iff (ys ye : ℤ) (r : Record) :
    (decide (ys ≤ r.year) && decide (r.year ≤ ye) && (r.code != "NA")) = true ↔
      ys ≤ r.year ∧ r.year ≤ ye ∧ r.code ≠ "NA" := by
  simp [and_assoc]

theorem median_isSome {l : List ℚ} (h : l ≠ []) : ∃ m, median l = some m := by
  have hlen : (List.insertionSort (· ≤ ·) l).length = l.length :=
    List.length_insertionSort _ l
  have hpos : 0 < (List.insertionSort (· ≤ ·) l).length := by
    rw [hlen]; exact List.length_pos.mpr h
  simp only [median]
  by_cases hodd : (List.insertionSort (· ≤ ·) l).length % 2 = 1
  · rw [if_pos hodd]
    have hlt : (List.insertionSort (· ≤ ·) l).length / 2 <
        (List.insertionSort (· ≤ ·) l).length := Nat.div_lt_self hpos (by norm_num)
    rw [List.getElem?_eq_getElem hlt]
    exact ⟨_, rfl⟩
  · rw [if_neg hodd]
    have ha : (List.insertionSort (· ≤ ·) l).length / 2 - 1 <
        (List.insertionSort (· ≤ ·) l).length := by omega
    have hb : (List.insertionSort (· ≤ ·) l).length / 2 <
        (List.insertionSort (· ≤ ·) l).length := Nat.div_lt_self hpos (by norm_num)
    rw [List.getElem?_eq_getElem ha, List.getElem?_eq_getElem hb]
    exact ⟨_, rfl⟩

theorem mem_entityKeys {l : List Record} {e : String} :
    e ∈ entityKeys l ↔ ∃ r ∈ l, r.entity = e := by
  simp [entityKeys, List.mem_insertionSort, List.mem_dedup, List.mem_map]

theorem slopesAux_mem {l : List Record} {keys : List String}
    {m : List (String × Option ℚ)} (hok : slopesAux l keys = .ok m) {e : String}
    (he : e ∈ keys) {s : Option ℚ} (hs : get_slope (groupOf l e) = .ok s) :
    (e, s) ∈ m := by
  induction keys generalizing m with
  | nil => cases he
  | cons k ks ih =>
    rw [slopesAux] at hok
    cases hgk : get_slope (groupOf l k) with
    | error msg => rw [hgk] at hok; cases hok
    | ok sk =>
      rw [hgk] at hok
      cases hrest : slopesAux l ks with
      | error msg => rw [hrest] at hok; cases hok
      | ok rest =>
        rw [hrest] at hok
        injection hok with hok
        subst hok
        rcases List.mem_cons.mp he with rfl | hks
        · rw [hs] at hgk
          injection hgk with hgk
          rw [hgk]
          exact List.mem_cons_self _ _
        · exact List.mem_cons_of_mem _ (ih hrest hks)

theorem allYearsEq_of_all_eq {g : List Record}
    (h : ∀ p ∈ g, ∀ q ∈ g, p.year = q.year) : allYearsEq g = true := by
  cases g with
  | nil => rfl
  | cons r rs =>
    simp only [allYearsEq, List.all_eq_true, beq_iff_eq]
    intro s hsm
    exact h s (List.mem_cons_of_mem _ hsm) r (List.mem_cons_self _ _)

/-! ### C5 — filter_range keeps exactly the in-range valid-code rows -/

/-- C5: `filter_range` keeps exactly the rows with
`year_start ≤ year ≤ year_end` (both bounds inclusive) and `code ≠ "NA"`
(stated by row multiplicity and by membership), and when
`year_start > year_end` the result is the empty dataset, not an error. -/
theorem filter_range_spec (df : List Record) (year_start year_end : ℤ) (r : Record) :
    ((filter_range year_start year_end df).count r =
      if year_start ≤ r.year ∧ r.year ≤ year_end ∧ r.code ≠ "NA"
      then df.count r else 0) ∧
    (r ∈ filter_range year_start year_end df ↔
      r ∈ df ∧ year_start ≤ r.year ∧ r.year ≤ year_end ∧ r.code ≠ "NA") ∧
    (year_end < year_start → filter_range year_start year_end df = []) := by
  refine ⟨?_, ?_, ?_⟩
  · rw [filter_range, count_filter_eq]
    by_cases h : year_start ≤ r.year ∧ r.year ≤ year_end ∧ r.code ≠ "NA"
    · rw [if_pos ((filterPred_iff year_start year_end r).mpr h), if_pos h]
    · rw [if_neg (fun hb => h ((filterPred_iff year_start year_end r).mp hb)),
        if_neg h]
  · rw [filter_range]
    constructor
    · intro hm
      obtain ⟨hmem, hp⟩ := List.mem_filter.mp hm
      exact ⟨hmem, (filterPred_iff year_start year_end r).mp hp⟩
    · intro ⟨hmem, hp⟩
      exact List.mem_filter.mpr ⟨hmem, (filterPred_iff year_start year_end r).mpr hp⟩
  · intro hlt
    rw [filter_range, List.filter_eq_nil_iff]
    intro a _
    intro hp
    obtain ⟨h1, h2, _⟩ := (filterPred_iff year_start year_end a).mp hp
    omega

/-- A row with a given year, used to instantiate the `filter_range` theorem on
the year multiset `[2005, 2010, 2015, 2022, 2023]` from the spec. -/
def rowOf (y : ℤ) : Record :=
  { entity := "E", code := "EC", year := y, continent := "Asia"
    lifeExpF := some 70, totalPop := none }

/-- The concrete dataset of the spec's `filter_range` example. -/
def dfW : List Record := [rowOf 2005, rowOf 2010, rowOf 2015, rowOf 2022, rowOf 2023]

/-- Witness for C5: on years `[2005, 2010, 2015, 2022, 2023]` the filter with
bounds `2010, 2022` keeps exactly the `{2010, 2015, 2022}` rows, and inverted
bounds produce the empty dataset. -/
theorem filter_range_spec_witness :
    filter_range 2010 2022 dfW = [rowOf 2010, rowOf 2015, rowOf 2022] ∧
    filter_range 2022 2010 dfW = [] :=
  ⟨by decide, (filter_range_spec dfW 2022 2010 (rowOf 2005)).2.2 (by decide)⟩

/-! ### C9 — load_data alters nothing outside the two filled columns -/

/-- C9: `load_data` adds and removes no rows, and every field of every row
other than `Life expectancy-female` and `Code` — entity, year, continent,
total population — is returned unchanged. -/
theorem load_data_frame (src : List RawRecord) (i : ℕ) (h : i < src.length)
    (h' : i < (load_data src).length) :
    (load_data src).length = src.length ∧
    ((load_data src).get ⟨i, h'⟩).entity = (src.get ⟨i, h⟩).entity ∧
    ((load_data src).get ⟨i, h'⟩).year = (src.get ⟨i, h⟩).year ∧
    ((load_data src).get ⟨i, h'⟩).continent = (src.get ⟨i, h⟩).continent ∧
    ((load_data src).get ⟨i, h'⟩).totalPop = (src.get ⟨i, h⟩).totalPop := by
  have hg : (load_data src).get ⟨i, h'⟩ = cleanRow src (src.get ⟨i, h⟩) := by
    simp [load_data]
  refine ⟨by simp [load_data], ?_, ?_, ?_, ?_⟩ <;> rw [hg] <;> rfl

/-- A concrete one-row source for the frame witness. -/
def srcW : List RawRecord :=
  [{ entity := "W", code := some "WC", year := 2011, continent := "Asia"
     lifeExpF := some 70, totalPop := some 1000 }]

/-- Witness for C9 at a concrete one-row source. -/
theorem load_data_frame_witness :
    (load_data srcW).length = srcW.length ∧
    ((load_data srcW).get ⟨0, by decide⟩).entity = (srcW.get ⟨0, by decide⟩).entity ∧
    ((load_data srcW).get ⟨0, by decide⟩).year = (srcW.get ⟨0, by decide⟩).year ∧
    ((load_data srcW).get ⟨0, by decide⟩).continent =
      (srcW.get ⟨0, by decide⟩).continent ∧
    ((load_data srcW).get ⟨0, by decide⟩).totalPop =
      (srcW.get ⟨0, by decide⟩).totalPop :=
  load_data_frame srcW 0 (by decide) (by decide)

/-! ### C8 — entities with only null observations stay null -/

/-- C8: for an entity all of whose `Life expectancy-female` observations are
null, the group median is the median of an empty series, so the fill is a
no-op: the cleaned value is still null, the row is still present in the
output, and no row of any entity is dropped. -/
theorem load_data_all_null (src : List RawRecord) (r : RawRecord) (hr : r ∈ src)
    (hall : ∀ r' ∈ src, r'.entity = r.entity → r'.lifeExpF = none) :
    (cleanRow src r).lifeExpF = none ∧ cleanRow src r ∈ load_data src ∧
    (load_data src).length = src.length := by
  have hec : entityValues src r.entity = [] := by
    rw [entityValues, List.filterMap_eq_nil_iff]
    intro a ha
    obtain ⟨ham, hae⟩ := List.mem_filter.mp ha
    exact hall a ham (by simpa using hae)
  refine ⟨?_, ?_, by simp [load_data]⟩
  · rw [cleanRow]
    simp only [hall r hr rfl, hec]
    rfl
  · rw [load_data]
    exact List.mem_map_of_mem _ hr

/-- The single all-null row of the C8 witness source. -/
def rowN : RawRecord :=
  { entity := "N", code := some "NC", year := 2010, continent := "Asia"
    lifeExpF := none, totalPop := none }

/-- A concrete source whose single entity has only null observations. -/
def srcN : List RawRecord := [rowN]

/-- Witness for C8 at a concrete all-null source. -/
theorem load_data_all_null_witness :
    (cleanRow srcN rowN).lifeExpF = none ∧
    cleanRow srcN rowN ∈ load_data srcN ∧
    (load_data srcN).length = srcN.length :=
  load_data_all_null srcN rowN (by decide) (by decide)

/-! ### C3 — nulls are imputed with the entity's own median -/

/-- C3: for every row whose `Life expectancy-female` was null and whose entity
has at least one non-null observation, the cleaned value is exactly the median
of that entity's own original non-null values; the cleaned row appears in the
`load_data` output; and the filled value depends only on the rows of that
entity — any source with the same entity group produces the same filled value,
so nothing is ever borrowed from another entity. -/
theorem load_data_median_impute (src : List RawRecord) (r : RawRecord)
    (hr : r ∈ src) (hnull : r.lifeExpF = none)
    (hex : ∃ r' ∈ src, r'.entity = r.entity ∧ r'.lifeExpF ≠ none) :
    ∃ m : ℚ,
      median (entityValues src r.entity) = some m ∧
      (cleanRow src r).lifeExpF = some m ∧
      cleanRow src r ∈ load_data src ∧
      ∀ src₂ : List RawRecord,
        entityGroup src₂ r.entity = entityGroup src r.entity →
        (cleanRow src₂ r).lifeExpF = some m := by
  obtain ⟨r', hr'm, hr'e, hr'v⟩ := hex
  obtain ⟨v, hv⟩ := Option.ne_none_iff_exists'.mp hr'v
  have hvmem : v ∈ entityValues src r.entity := by
    rw [entityValues]
    exact List.mem_filterMap.mpr
      ⟨r', List.mem_filter.mpr ⟨hr'm, by simpa using hr'e⟩, hv⟩
  obtain ⟨m, hm⟩ := median_isSome (List.ne_nil_of_mem hvmem)
  refine ⟨m, hm, ?_, ?_, ?_⟩
  · rw [cleanRow]
    simp only [hnull, hm]
  · rw [load_data]
    exact List.mem_map_of_mem _ hr
  · intro src₂ hg
    rw [cleanRow]
    simp only [hnull]
    rw [entityValues, hg, ← entityValues, hm]

/-- The null row of the C3 witness source. -/
def rowM0 : RawRecord :=
  { entity := "M", code := some "MC", year := 2010, continent := "Asia"
    lifeExpF := none, totalPop := none }

/-- A non-null row of the C3 witness source. -/
def rowM1 : RawRecord :=
  { entity := "M", code := some "MC", year := 2011, continent := "Asia"
    lifeExpF := some 70, totalPop := none }

/-- A concrete source: entity `"M"` has one null row and two non-null rows
with values `70` and `80`, whose median is `75`. -/
def srcM : List RawRecord :=
  [rowM0, rowM1,
   { entity := "M", code := some "MC", year := 2012, continent := "Asia"
     lifeExpF := some 80, totalPop := none }]

/-- Witness for C3: the null row of entity `"M"` is filled with the median
`75` of its own non-null values `[70, 80]`. -/
theorem load_data_median_impute_witness :
    (cleanRow srcM rowM0).lifeExpF = median (entityValues srcM "M") ∧
    (cleanRow srcM rowM0).lifeExpF = some 75 := by
  obtain ⟨m, hmed, hfill, -, -⟩ :=
    load_data_median_impute srcM rowM0 (by decide) rfl
      ⟨rowM1, by decide, rfl, by decide⟩
  rw [show rowM0.entity = "M" from rfl] at hmed
  have h75 : median (entityValues srcM "M") = some 75 := by
    show median [70, 80] = some 75
    norm_num [median]
  exact ⟨by rw [hfill, hmed], by rw [hfill, ← h75, hmed]⟩

/-! ### C6 — groups with fewer than 2 rows get rate 0, never an error -/

/-- C6: any entity present in the filtered dataset with fewer than 2 rows
(including exactly one row) gets growth rate `0` from `get_slope` — no error
is raised — and whenever the grouped slope computation succeeds, the entity
appears in the resulting mapping with rate `0` rather than being omitted. -/
theorem get_slope_short_group (l : List Record) (e : String)
    (he : ∃ r ∈ l, r.entity = e) (hlen : (groupOf l e).length < 2) :
    get_slope (groupOf l e) = .ok (some 0) ∧
    ∀ m, slopes l = .ok m → (e, (some 0 : Option ℚ)) ∈ m := by
  have h1 : get_slope (groupOf l e) = .ok (some 0) := by
    rw [get_slope, if_pos hlen]
  exact ⟨h1, fun m hm => slopesAux_mem hm (mem_entityKeys.mpr he) h1⟩

/-- A concrete one-row entity for the C6 witness. -/
def soloRow : Record :=
  { entity := "Solo", code := "SC", year := 2015, continent := "Asia"
    lifeExpF := some 70, totalPop := none }

/-- Witness for C6 at a dataset whose single entity has exactly one row. -/
theorem get_slope_short_group_witness :
    get_slope (groupOf [soloRow] "Solo") = .ok (some 0) ∧
    ("Solo", (some 0 : Option ℚ)) ∈ [("Solo", (some 0 : Option ℚ))] := by
  have h := get_slope_short_group [soloRow] "Solo" ⟨soloRow, by decide, rfl⟩
    (by decide)
  exact ⟨h.1, h.2 _ rfl⟩

/-! ### C1 — duplicate-year groups: the code raises instead of returning 0 -/

/-- A group of two rows of the same entity sharing the same year: the
degenerate zero-year-variance case of the claim. -/
def dupYearGroup : List Record :=
  [{ entity := "X", code := "XC", year := 2010, continent := "Asia"
     lifeExpF := some 70, totalPop := none },
   { entity := "X", code := "XC", year := 2010, continent := "Asia"
     lifeExpF := some 80, totalPop := none }]

/-- Counterexample to C1: on a two-row group whose rows share the same year,
`get_slope` does NOT return growth rate `0` — `linregress` raises
`ValueError` because all x values are identical, and the code has no special
case for zero year-variance. -/
theorem get_slope_dup_years_counterexample :
    get_slope dupYearGroup ≠ .ok (some 0) ∧
    get_slope dupYearGroup =
      .error "Cannot calculate a linear regression if all x values are identical" := by
  refine ⟨?_, rfl⟩
  intro h
  exact Except.noConfusion h

/-- C1 amended: for every entity group with at least 2 rows all sharing the
same year, `get_slope` raises the `linregress` `ValueError` (all x values
identical) instead of assigning growth rate `0`. -/
theorem get_slope_identical_years (g : List Record) (h2 : 2 ≤ g.length)
    (hy : ∀ p ∈ g, ∀ q ∈ g, p.year = q.year) :
    get_slope g =
      .error "Cannot calculate a linear regression if all x values are identical" := by
  rw [get_slope, if_neg (by omega), if_pos (allYearsEq_of_all_eq hy)]

/-- Witness for the amended C1 at the concrete duplicate-year group. -/
theorem get_slope_identical_years_witness :
    2 ≤ dupYearGroup.length ∧
    get_slope dupYearGroup =
      .error "Cannot calculate a linear regression if all x values are identical" :=
  ⟨by decide, get_slope_identical_years dupYearGroup (by decide) (by decide)⟩

/-! ### Stability lemmas for the nlargest-then-sort-ascending ranking -/

theorem filter_insertionSort_of_tied {α : Type} (r : α → α → Prop) [DecidableRel r]
    (p : α → Bool) (hr : ∀ a b, p a = true → p b = true → r a b) (m : List α) :
    (List.insertionSort r m).filter p = m.filter p := by
  have hall : ∀ a ∈ m.filter p, p a = true := fun a ha => (List.mem_filter.mp ha).2
  have hpair : (m.filter p).Pairwise r := by
    apply List.pairwise_of_forall_mem_list
    intro a ha b hb
    exact hr a b (hall a ha) (hall b hb)
  have hsub : List.Sublist (m.filter p) (List.insertionSort r m) :=
    List.sublist_insertionSort hpair (List.filter_sublist m)
  have h2 : List.Sublist (m.filter p) ((List.insertionSort r m).filter p) := by
    have h := hsub.filter p
    rwa [List.filter_eq_self.mpr hall] at h
  have h3 : ((List.insertionSort r m).filter p).length = (m.filter p).length :=
    ((List.perm_insertionSort r m).filter _).length_eq
  exact (h2.eq_of_length h3.symm).symm

theorem filter_take_eq_take_filter {α : Type} (p : α → Bool) (L : List α) (n : ℕ) :
    ∃ k, (L.take n).filter p = (L.filter p).take k := by
  refine ⟨((L.take n).filter p).length, ?_⟩
  have h : L.filter p = (L.take n).filter p ++ (L.drop n).filter p := by
    rw [← List.filter_append, List.take_append_drop]
  rw [h, List.take_left]

/-! ### C2 — top_n selects the n largest rates and presents them ascending -/

/-- C2: for every growth-rate mapping `m` and every `n`, `top_n` returns a
selection of entries of `m` that is sorted ascending by growth rate, such that
every entry of `m` left out has a rate no larger than every selected entry
(i.e. the selected entries are the `n` largest); it has length `min n
(length m)`; and when `n` is at least the number of entities it is simply all
of `m` in ascending order. -/
theorem top_n_spec (m : List (String × ℚ)) (n : ℕ) :
    List.Sorted rateLE (top_n m n) ∧
    (∃ rest, m.Perm (top_n m n ++ rest) ∧
      ∀ p ∈ top_n m n, ∀ q ∈ rest, q.2 ≤ p.2) ∧
    (top_n m n).length = min n m.length ∧
    (m.length ≤ n → (top_n m n).Perm m) := by
  have hperm : (List.insertionSort rateGE m).Perm m := List.perm_insertionSort rateGE m
  have hsorted : List.Sorted rateGE (List.insertionSort rateGE m) :=
    List.sorted_insertionSort rateGE m
  have houtperm : (top_n m n).Perm ((List.insertionSort rateGE m).take n) :=
    List.perm_insertionSort rateLE _
  refine ⟨List.sorted_insertionSort rateLE _,
    ⟨(List.insertionSort rateGE m).drop n, ?_, ?_⟩, ?_, ?_⟩
  · have hsplit : m.Perm ((List.insertionSort rateGE m).take n ++
        (List.insertionSort rateGE m).drop n) := by
      rw [List.take_append_drop]
      exact hperm.symm
    exact hsplit.trans (houtperm.symm.append_right _)
  · intro q hq p hp
    exact hsorted.rel_of_mem_take_of_mem_drop (houtperm.subset hq) hp
  · rw [top_n, List.length_insertionSort, nlargest, List.length_take,
      List.length_insertionSort]
  · intro hle
    have htake : (List.insertionSort rateGE m).take n = List.insertionSort rateGE m :=
      List.take_of_length_le (by rw [List.length_insertionSort]; exact hle)
    refine houtperm.trans ?_
    rw [htake]
    exact hperm

/-- The growth map of the spec's `top_n_ascending` example. -/
def specMap : List (String × ℚ) := [("A", 5), ("B", 1), ("C", 9), ("D", 3)]

/-- Witness for C2: on the spec's example map, `top_n` with `n = 2` returns
`[(A,5), (C,9)]` in that order, and with `n = 10 > 4` it returns all four
entities. -/
theorem top_n_spec_witness :
    top_n specMap 2 = [("A", 5), ("C", 9)] ∧ (top_n specMap 10).Perm specMap :=
  ⟨by decide, (top_n_spec specMap 10).2.2.2 (by decide)⟩

/-! ### C7 — ties are broken by insertion order of the mapping -/

/-- C7: for every growth-rate mapping, every `n` and every rate value `v`, the
entries of the `top_n` output carrying rate `v` are exactly an initial segment
of the entries of the input mapping carrying rate `v`, in the input's own
order.  So when several entities are tied, both the choice of which tied
entities enter the ranking and their relative order in the ascending output
follow the original/insertion order of the mapping. -/
theorem top_n_tie_break (m : List (String × ℚ)) (n : ℕ) (v : ℚ) :
    ∃ k, (top_n m n).filter (fun p => p.2 == v) =
      (m.filter (fun p => p.2 == v)).take k := by
  have hdesc := filter_insertionSort_of_tied rateGE (fun p => p.2 == v)
    (fun a b ha hb => by
      rw [rateGE, show a.2 = v by simpa using ha, show b.2 = v by simpa using hb]) m
  have hasc := filter_insertionSort_of_tied rateLE (fun p => p.2 == v)
    (fun a b ha hb => by
      rw [rateLE, show a.2 = v by simpa using ha, show b.2 = v by simpa using hb])
    (nlargest m n)
  obtain ⟨k, hk⟩ := filter_take_eq_take_filter (fun p => p.2 == v)
    (List.insertionSort rateGE m) n
  refine ⟨k, ?_⟩
  rw [top_n, hasc, nlargest, hk, hdesc]

/-! ### Least-squares algebra for the C4 slope claim -/

theorem Sx_cons (p : ℚ × ℚ) (pts : List (ℚ × ℚ)) : Sx (p :: pts) = p.1 + Sx pts := by
  simp [Sx]

theorem Sy_cons (p : ℚ × ℚ) (pts : List (ℚ × ℚ)) : Sy (p :: pts) = p.2 + Sy pts := by
  simp [Sy]

theorem Sxx_cons (p : ℚ × ℚ) (pts : List (ℚ × ℚ)) :
    Sxx (p :: pts) = p.1 * p.1 + Sxx pts := by
  simp [Sxx]

theorem Sxy_cons (p : ℚ × ℚ) (pts : List (ℚ × ℚ)) :
    Sxy (p :: pts) = p.1 * p.2 + Sxy pts := by
  simp [Sxy]

theorem nQ_cons (p : ℚ × ℚ) (pts : List (ℚ × ℚ)) : nQ (p :: pts) = nQ pts + 1 := by
  simp [nQ]

theorem sum_resid (pts : List (ℚ × ℚ)) (a b : ℚ) :
    (pts.map fun p => p.2 - (a + b * p.1)).sum = Sy pts - nQ pts * a - b * Sx pts := by
  induction pts with
  | nil => simp [Sy, nQ, Sx]
  | cons p l ih =>
    simp only [List.map_cons, List.sum_cons, ih, Sy_cons, nQ_cons, Sx_cons]
    ring

theorem sum_xresid (pts : List (ℚ × ℚ)) (a b : ℚ) :
    (pts.map fun p => p.1 * (p.2 - (a + b * p.1))).sum =
      Sxy pts - a * Sx pts - b * Sxx pts := by
  induction pts with
  | nil => simp [Sxy, Sx, Sxx]
  | cons p l ih =>
    simp only [List.map_cons, List.sum_cons, ih, Sxy_cons, Sx_cons, Sxx_cons]
    ring

theorem sse_decomp (pts : List (ℚ × ℚ)) (a b a' b' : ℚ) :
    SSE pts a' b' = SSE pts a b
      + (pts.map fun p => ((a - a') + (b - b') * p.1) ^ 2).sum
      + 2 * (a - a') * (pts.map fun p => p.2 - (a + b * p.1)).sum
      + 2 * (b - b') * (pts.map fun p => p.1 * (p.2 - (a + b * p.1))).sum := by
  induction pts with
  | nil => simp [SSE]
  | cons p l ih =>
    simp only [SSE, List.map_cons, List.sum_cons] at ih ⊢
    rw [ih]
    ring

theorem sum_sq_sub (c : ℚ) (pts : List (ℚ × ℚ)) :
    (pts.map fun q => (c - q.1) ^ 2).sum = nQ pts * c ^ 2 - 2 * c * Sx pts + Sxx pts := by
  induction pts with
  | nil => simp [nQ, Sx, Sxx]
  | cons p l ih =>
    simp only [List.map_cons, List.sum_cons, ih, nQ_cons, Sx_cons, Sxx_cons]
    ring

theorem Dvar_cons (p : ℚ × ℚ) (pts : List (ℚ × ℚ)) :
    Dvar (p :: pts) = Dvar pts + (pts.map fun q => (p.1 - q.1) ^ 2).sum := by
  rw [Dvar, Dvar, sum_sq_sub, nQ_cons, Sx_cons, Sxx_cons]
  ring

theorem Dvar_nonneg (pts : List (ℚ × ℚ)) : 0 ≤ Dvar pts := by
  induction pts with
  | nil => simp [Dvar, nQ, Sx, Sxx]
  | cons p l ih =>
    rw [Dvar_cons]
    have h : 0 ≤ (l.map fun q => (p.1 - q.1) ^ 2).sum :=
      List.sum_nonneg fun x hx => by
        obtain ⟨q, -, rfl⟩ := List.mem_map.mp hx
        exact sq_nonneg _
    linarith

theorem Dvar_pos {pts : List (ℚ × ℚ)} {p q : ℚ × ℚ} (hp : p ∈ pts) (hq : q ∈ pts)
    (hne : p.1 ≠ q.1) : 0 < Dvar pts := by
  induction pts with
  | nil => cases hp
  | cons r l ih =>
    rw [Dvar_cons]
    have hnn : ∀ x ∈ l.map fun s => (r.1 - s.1) ^ 2, (0:ℚ) ≤ x := fun x hx => by
      obtain ⟨s, -, rfl⟩ := List.mem_map.mp hx
      exact sq_nonneg _
    have hsum0 : 0 ≤ (l.map fun s => (r.1 - s.1) ^ 2).sum := List.sum_nonneg hnn
    have hd := Dvar_nonneg l
    rcases List.mem_cons.mp hp with hpr | hp'
    · rcases List.mem_cons.mp hq with hqr | hq'
      · exact absurd (hpr ▸ hqr ▸ rfl) hne
      · have hmem : (r.1 - q.1) ^ 2 ∈ l.map fun s => (r.1 - s.1) ^ 2 :=
          List.mem_map_of_mem _ hq'
        have hne' : r.1 - q.1 ≠ 0 := sub_ne_zero.mpr (hpr ▸ hne)
        have hposq : 0 < (r.1 - q.1) ^ 2 :=
          lt_of_le_of_ne (sq_nonneg _) (Ne.symm (pow_ne_zero 2 hne'))
        have hle := List.single_le_sum hnn _ hmem
        linarith
    · rcases List.mem_cons.mp hq with hqr | hq'
      · have hmem : (r.1 - p.1) ^ 2 ∈ l.map fun s => (r.1 - s.1) ^ 2 :=
          List.mem_map_of_mem _ hp'
        have hne' : r.1 - p.1 ≠ 0 := sub_ne_zero.mpr (hqr ▸ hne.symm)
        have hposq : 0 < (r.1 - p.1) ^ 2 :=
          lt_of_le_of_ne (sq_nonneg _) (Ne.symm (pow_ne_zero 2 hne'))
        have hle := List.single_le_sum hnn _ hmem
        linarith
      · have hDl := ih hp' hq'
        linarith

theorem sse_min (pts : List (ℚ × ℚ)) (hn : nQ pts ≠ 0) (hD : Dvar pts ≠ 0)
    (a' b' : ℚ) : SSE pts (intercept pts) (linregressSlope pts) ≤ SSE pts a' b' := by
  have hE : (pts.map fun p =>
      p.2 - (intercept pts + linregressSlope pts * p.1)).sum = 0 := by
    rw [sum_resid, intercept]
    field_simp
  have hD' : nQ pts * Sxx pts - Sx pts * Sx pts ≠ 0 := by
    rw [← Dvar]; exact hD
  have hF : (pts.map fun p =>
      p.1 * (p.2 - (intercept pts + linregressSlope pts * p.1))).sum = 0 := by
    rw [sum_xresid, intercept, linregressSlope, Dvar]
    field_simp
    ring
  have hdec := sse_decomp pts (intercept pts) (linregressSlope pts) a' b'
  rw [hE, hF] at hdec
  have hsq : 0 ≤ (pts.map fun p =>
      ((intercept pts - a') + (linregressSlope pts - b') * p.1) ^ 2).sum :=
    List.sum_nonneg fun x hx => by
      obtain ⟨p, -, rfl⟩ := List.mem_map.mp hx
      exact sq_nonneg _
  linarith

theorem ptsOf_some {g : List Record} (hv : ∀ r ∈ g, r.lifeExpF ≠ none) :
    ∃ pts, ptsOf g = some pts ∧ pts.length = g.length ∧
      pts.map (·.1) = g.map (fun r => ((r.year : ℚ))) := by
  induction g with
  | nil => exact ⟨[], rfl, rfl, rfl⟩
  | cons r rs ih =>
    obtain ⟨v, hv0⟩ :=
      Option.ne_none_iff_exists'.mp (hv r (List.mem_cons_self _ _))
    obtain ⟨pts, hp, hl, hx⟩ := ih fun s hs => hv s (List.mem_cons_of_mem _ hs)
    refine ⟨((r.year : ℚ), v) :: pts, ?_, by simp [hl], by simp [hx]⟩
    rw [ptsOf, hv0, hp]

theorem all_years_eq_of_allYearsEq {g : List Record} (h : allYearsEq g = true) :
    ∀ p ∈ g, ∀ q ∈ g, p.year = q.year := by
  cases g with
  | nil => intro p hp; cases hp
  | cons r rs =>
    simp only [allYearsEq, List.all_eq_true, beq_iff_eq] at h
    intro p hp q hq
    rcases List.mem_cons.mp hp with rfl | hp'
    · rcases List.mem_cons.mp hq with rfl | hq'
      · rfl
      · exact (h q hq').symm
    · rcases List.mem_cons.mp hq with rfl | hq'
      · exact h p hp'
      · exact (h p hp').trans (h q hq').symm

theorem allYearsEq_false {g : List Record} {p q : Record} (hp : p ∈ g) (hq : q ∈ g)
    (hne : p.year ≠ q.year) : allYearsEq g = false := by
  cases hb : allYearsEq g
  · rfl
  · exact absurd (all_years_eq_of_allYearsEq hb p hp q hq) hne

/-! ### C4 — get_slope returns the ordinary least-squares slope -/

/-- C4: for every entity group with at least 2 rows, at least two distinct
years and numeric (non-null) values, `get_slope` succeeds and returns the
slope of the least-squares fit `value ≈ a + b·year` over all of the group's
rows — duplicate years stay as separate observations (`pts` has exactly one
point per row) — i.e. a slope which, together with the intercept, minimises
the sum of squared residuals over all affine fits. -/
theorem get_slope_ols (g : List Record) (h2 : 2 ≤ g.length)
    (hdy : ∃ p ∈ g, ∃ q ∈ g, p.year ≠ q.year)
    (hv : ∀ r ∈ g, r.lifeExpF ≠ none) :
    ∃ pts : List (ℚ × ℚ), ptsOf g = some pts ∧ pts.length = g.length ∧
      get_slope g = .ok (some (linregressSlope pts)) ∧
      ∀ a' b' : ℚ, SSE pts (intercept pts) (linregressSlope pts) ≤ SSE pts a' b' := by
  obtain ⟨p, hp, q, hq, hne⟩ := hdy
  obtain ⟨pts, hpts, hlen, hx⟩ := ptsOf_some hv
  have hfalse : allYearsEq g = false := allYearsEq_false hp hq hne
  have hgs : get_slope g = .ok (some (linregressSlope pts)) := by
    rw [get_slope, if_neg (by omega), if_neg (by simp [hfalse]), hpts]
    rfl
  have hxp : ((p.year : ℚ)) ∈ pts.map (·.1) := by
    rw [hx]; exact List.mem_map_of_mem _ hp
  have hxq : ((q.year : ℚ)) ∈ pts.map (·.1) := by
    rw [hx]; exact List.mem_map_of_mem _ hq
  obtain ⟨pp, hppm, hpp1⟩ := List.mem_map.mp hxp
  obtain ⟨qq, hqqm, hqq1⟩ := List.mem_map.mp hxq
  have hne' : pp.1 ≠ qq.1 := by
    rw [hpp1, hqq1]
    exact fun h => hne (by exact_mod_cast h)
  have hDpos : 0 < Dvar pts := Dvar_pos hppm hqqm hne'
  have hn : nQ pts ≠ 0 := by
    rw [nQ, hlen]
    have : 0 < g.length := by omega
    positivity
  exact ⟨pts, hpts, hlen, hgs, fun a' b' => sse_min pts hn (ne_of_gt hDpos) a' b'⟩

/-- The concrete group of the spec's slope example: rows
`(year=2010, value=70)` and `(year=2020, value=80)`. -/
def exG : List Record :=
  [{ entity := "G", code := "GC", year := 2010, continent := "Asia"
     lifeExpF := some 70, totalPop := none },
   { entity := "G", code := "GC", year := 2020, continent := "Asia"
     lifeExpF := some 80, totalPop := none }]

/-- The points of the spec's slope example group. -/
def exPts : List (ℚ × ℚ) := [(2010, 70), (2020, 80)]

/-- Witness for C4: on rows `(2010, 70), (2020, 80)` the computed slope is
exactly `1`, and its sum of squared residuals is no larger than that of the
fit with intercept `0` and slope `0`. -/
theorem get_slope_ols_witness :
    get_slope exG = Except.ok (some 1) ∧
    SSE exPts (intercept exPts) (linregressSlope exPts) ≤ SSE exPts 0 0 := by
  obtain ⟨pts, hpts, -, hslope, hmin⟩ :=
    get_slope_ols exG (by decide) (by decide) (by decide)
  have hpts' : pts = exPts := by
    have h : ptsOf exG = some exPts := rfl
    rw [h] at hpts
    exact (Option.some.inj hpts).symm
  subst hpts'
  have h1 : linregressSlope exPts = 1 := by
    norm_num [linregressSlope, Sx, Sy, Sxy, Sxx, nQ, Dvar, exPts]
  exact ⟨by rw [hslope, h1], hmin 0 0⟩

/-! ### C10 — the Dashboard and Streamlit scripts compute the same pipeline -/

theorem all_year_map (r : Record) (rs : List Record) :
    (rs.map dropEntity).all (fun s => s.year == (dropEntity r).year) =
      rs.all (fun s => s.year == r.year) := by
  induction rs with
  | nil => rfl
  | cons s ss ih =>
    simp only [List.map_cons, List.all_cons, ih]
    rfl

theorem streamlit_allYearsEq (g : List Record) :
    streamlit.allYearsEq (g.map dropEntity) = allYearsEq g := by
  cases g with
  | nil => rfl
  | cons r rs =>
    simp only [List.map_cons, streamlit.allYearsEq, allYearsEq]
    exact all_year_map r rs

theorem streamlit_ptsOf (g : List Record) :
    streamlit.ptsOf (g.map dropEntity) = ptsOf g := by
  induction g with
  | nil => rfl
  | cons r rs ih =>
    simp only [List.map_cons, streamlit.ptsOf, ptsOf, ih, dropEntity]

theorem streamlit_get_slope (g : List Record) :
    streamlit.get_slope (g.map dropEntity) = get_slope g := by
  rw [streamlit.get_slope, get_slope, List.length_map, streamlit_allYearsEq,
    streamlit_ptsOf]

theorem streamlit_slopesAux (l : List Record) (keys : List String) :
    streamlit.slopesAux l keys = slopesAux l keys := by
  induction keys with
  | nil => rfl
  | cons e es ih =>
    rw [streamlit.slopesAux, slopesAux, streamlit_get_slope, ih]

theorem streamlit_slopes (l : List Record) : streamlit.slopes l = slopes l := by
  rw [streamlit.slopes, slopes, streamlit_slopesAux]

/-- C10: for every input record set and the shared constants
`YEAR_START = 2010`, `YEAR_END = 2022`, `TOP_N = 10`, the Dashboard script and
the Streamlit script produce identical filtered datasets and identical top-10
rankings: stripping the `Entity` column from each group
(`include_groups=False`) changes no slope, and every other pipeline stage is
textually identical. -/
theorem pipelines_agree (src : List RawRecord) :
    streamlit.run_pipeline src = run_pipeline src := by
  simp only [streamlit.run_pipeline, run_pipeline, streamlit_slopes]

end VDSR
